import Mathlib

/-!
# Verification of the keyring management layer (`src/keyring.rs`)

A shallow embedding of the keyring management layer of this repository.
The `KeyRing` methods are translated directly from `src/keyring.rs`.
The external collaborators — the syscall gateway, the kernel keyring
facility, identifier range conversion, description encoding, and link-node
classification — are not part of `src/`; they are modelled from the
specification (spec.md §3–§7) and each such definition is marked
`Modelled from the spec:` in its doc comment.

Machine integers are represented as `Nat`/`Int`; kernel serial numbers are
non-negative and must fit the signed 32-bit range to pass the wrapper's
post-call validation.
-/

namespace Keyutils

/-- Modelled from the spec: the error taxonomy of §7, surfaced by the syscall
gateway and by the layer's two local validations (the `KeyError` enum lives
outside `src/`). -/
inductive KeyError where
  | InvalidIdentifier
  | InvalidDescription
  | KeyDoesNotExist
  | PermissionDenied
  | QuotaExceeded
  | AccessCycle
  | NestingTooDeep
  | Other (raw : Nat)
deriving DecidableEq

/-- Modelled from the spec: §3 — an Identifier is an opaque signed 32-bit
value (`KeySerialId` lives outside `src/`). -/
structure KeySerialId where
  raw : Int
deriving DecidableEq

/-- Modelled from the spec: §4.1/§7 post-call identifier range validation —
a raw non-negative machine word returned by the gateway is accepted iff it
fits the signed 32-bit range (the `TryFrom` impl lives outside `src/`). -/
def KeySerialId.tryFrom (v : Nat) : Option KeySerialId :=
  if v < 2 ^ 31 then some ⟨Int.ofNat v⟩ else none

/-- `KeySerialId::as_raw_id`. -/
def KeySerialId.as_raw_id (i : KeySerialId) : Int := i.raw

/-- Modelled from the spec: §3 — the fixed set of special well-known keyring
slots (the `KeyRingIdentifier` enum lives outside `src/`). -/
inductive KeyRingIdentifier where
  | Thread
  | Process
  | Session
  | User
  | UserSession
  | Group
  | ReqKeyAuthKey
  | Requestor
deriving DecidableEq

/-- Modelled from the spec: §3 — "specific negative/sentinel values name
special keyrings"; the standard kernel sentinel numbering. -/
def KeyRingIdentifier.rawValue : KeyRingIdentifier → Int
  | .Thread => -1
  | .Process => -2
  | .Session => -3
  | .User => -4
  | .UserSession => -5
  | .Group => -6
  | .ReqKeyAuthKey => -7
  | .Requestor => -8

/-- Modelled from the spec: the kernel-side decoding of a raw sentinel value
back into a special keyring slot. -/
def KeyRingIdentifier.ofRaw (v : Int) : Option KeyRingIdentifier :=
  if v = -1 then some .Thread
  else if v = -2 then some .Process
  else if v = -3 then some .Session
  else if v = -4 then some .User
  else if v = -5 then some .UserSession
  else if v = -6 then some .Group
  else if v = -7 then some .ReqKeyAuthKey
  else if v = -8 then some .Requestor
  else none

/-- Modelled from the spec: §6 — the object type reported by the Metadata
collaborator's resolution. -/
inductive ObjKind where
  | Key
  | KeyRing
deriving DecidableEq

/-- Modelled from the spec: §6 — the slice of a metadata descriptor the core
consumes: object type, description, payload. -/
structure ObjInfo where
  kind : ObjKind
  desc : String
  payload : List UInt8
deriving DecidableEq

/-- Association-list lookup (first binding wins). -/
def lookupA {α β : Type} [DecidableEq α] : List (α × β) → α → Option β
  | [], _ => none
  | (a, b) :: t, x => if x = a then some b else lookupA t x

/-- Association-list update-or-insert. -/
def setA {α β : Type} [DecidableEq α] : List (α × β) → α → β → List (α × β)
  | [], x, y => [(x, y)]
  | (a, b) :: t, x, y => if x = a then (x, y) :: t else (a, b) :: setA t x y

/-- Modelled from the spec: §2/§5 — the kernel keyring facility's state as the
core observes it: a fresh-serial allocator, the instantiated special keyring
slots, the current user's persistent keyring, the existing objects with
their metadata, and the link graph (each keyring's ordered link list). -/
structure KState where
  next : Nat
  specials : List (KeyRingIdentifier × Nat)
  persistent : Option Nat
  objs : List (Nat × ObjInfo)
  links : List (Nat × List Nat)
deriving DecidableEq

/-- Metadata resolution of an identifier in a kernel state. -/
def KState.objInfo (st : KState) (i : Nat) : Option ObjInfo :=
  lookupA st.objs i

/-- The ordered link list of a keyring (empty for an unknown id). -/
def KState.ringLinks (st : KState) (r : Nat) : List Nat :=
  (lookupA st.links r).getD []

/-- Modelled from the spec: §7 — description encodability: a description is
encodable iff it converts to a null-free byte sequence (`CString::new`
lives outside `src/`). -/
def hasNul (d : String) : Bool :=
  d.data.any (fun c => decide (c = Char.ofNat 0))

/-- Does identifier `i` denote an existing key with description `d`? -/
def KState.isKeyWithDesc (st : KState) (i : Nat) (d : String) : Bool :=
  match st.objInfo i with
  | some info => decide (info.kind = ObjKind.Key ∧ info.desc = d)
  | none => false

/-- Does identifier `i` denote an existing keyring? -/
def KState.isRing (st : KState) (i : Nat) : Bool :=
  match st.objInfo i with
  | some info => decide (info.kind = ObjKind.KeyRing)
  | none => false

/-- Do two identifiers carry the same object type and description?  Used for
the kernel's silent displacement rule (§4.6 (c)). -/
def KState.sameTypeDesc (st : KState) (i : Nat) (info : ObjInfo) : Bool :=
  match st.objInfo i with
  | some j => decide (j.kind = info.kind ∧ j.desc = info.desc)
  | none => false

/-- Modelled from the spec: §4.6 (c) — adding a link to a keyring: any
existing link of the same type+description is silently displaced, and the
new link is appended in link order (§3, Link Collection ordering). -/
def kAddLink (st : KState) (dest src : Nat) : KState :=
  let old := st.ringLinks dest
  let keep :=
    match st.objInfo src with
    | some info => old.filter (fun i => !st.sameTypeDesc i info)
    | none => old
  { st with links := setA st.links dest (keep ++ [src]) }

/-- Modelled from the spec: §4.1 — the KEYCTL_GET_KEYRING_ID operation: the
sole bridge from symbolic slot to concrete handle.  Returns the slot's
serial if instantiated; otherwise creates it when `create` holds, and fails
with `KeyDoesNotExist` when it does not. -/
def kGetKeyRingId (st : KState) (s : KeyRingIdentifier) (create : Bool) :
    KState × Except KeyError Nat :=
  match lookupA st.specials s with
  | some i => (st, .ok i)
  | none =>
    if create then
      let i := st.next
      ({ st with
          next := st.next + 1
          specials := setA st.specials s i
          objs := setA st.objs i ⟨ObjKind.KeyRing, "", []⟩ }, .ok i)
    else (st, .error KeyError.KeyDoesNotExist)

/-- Modelled from the spec: §4.2 — the KEYCTL_GET_PERSISTENT operation with
the "no particular uid" sentinel: the kernel creates the caller's
persistent keyring if absent and links it into the resolved `linkWith`
target (which is itself created on demand).  Expiry-timer state is not
observable through any operation of this layer and is not modelled. -/
def kGetPersistent (st : KState) (linkWith : KeyRingIdentifier) :
    KState × Except KeyError Nat :=
  let res :=
    match st.persistent with
    | some p => (p, st)
    | none =>
      (st.next,
        { st with
            next := st.next + 1
            persistent := some st.next
            objs := setA st.objs st.next ⟨ObjKind.KeyRing, "_persistent", []⟩ })
  let pid := res.1
  let st1 := res.2
  match kGetKeyRingId st1 linkWith true with
  | (st2, .ok dest) => (kAddLink st2 dest pid, .ok pid)
  | (st2, .error e) => (st2, .error e)

/-- Modelled from the spec: §4.6 — the KEYCTL_LINK operation.  `src` is the
raw word the caller passed: a positive value names a real object, a
negative sentinel names a special slot which is auto-created on demand
(the documented asymmetry of `linkKeyringById`).  Cycle and depth
enforcement are kernel-internal rejections not exercised by any claim and
not modelled. -/
def kLink (st : KState) (src : Int) (dest : Nat) : KState × Except KeyError Unit :=
  let res :=
    if 0 < src then
      match st.objInfo src.toNat with
      | some _ => (st, Except.ok src.toNat)
      | none => (st, Except.error KeyError.KeyDoesNotExist)
    else
      match KeyRingIdentifier.ofRaw src with
      | some s => kGetKeyRingId st s true
      | none => (st, Except.error (KeyError.Other 22))
  match res with
  | (st1, .error e) => (st1, .error e)
  | (st1, .ok sid) =>
    match st1.objInfo dest with
    | some dinfo =>
      if dinfo.kind = ObjKind.KeyRing then (kAddLink st1 dest sid, .ok ())
      else (st1, .error (KeyError.Other 25))
    | none => (st1, .error KeyError.KeyDoesNotExist)

/-- Modelled from the spec: §4.6 — the KEYCTL_UNLINK operation.  A special
sentinel source is resolved without creation and fails with
`KeyDoesNotExist` when the slot was never instantiated; unlinking fails if
no such link currently exists. -/
def kUnlink (st : KState) (src : Int) (dest : Nat) : KState × Except KeyError Unit :=
  let rsrc : Except KeyError Nat :=
    if 0 < src then .ok src.toNat
    else
      match KeyRingIdentifier.ofRaw src with
      | some s =>
        match lookupA st.specials s with
        | some i => .ok i
        | none => .error KeyError.KeyDoesNotExist
      | none => .error (KeyError.Other 22)
  match rsrc with
  | .error e => (st, .error e)
  | .ok sid =>
    if sid ∈ st.ringLinks dest then
      ({ st with
          links := setA st.links dest
            ((st.ringLinks dest).filter (fun i => decide (i ≠ sid))) }, .ok ())
    else (st, .error KeyError.KeyDoesNotExist)

/-- Modelled from the spec: §4.5 — the KEYCTL_READ operation on a keyring:
the kernel fills the caller's buffer, capacity measured in fixed-width
identifier slots, with as many link entries as fit (truncation is silent)
and reports the byte count written; each entry is 4 bytes
(`size_of::<KeySerialId>()`).  Returns (buffer contents, byte count). -/
def kRead (st : KState) (ring : Nat) (capSlots : Nat) : List Nat × Nat :=
  let written := (st.ringLinks ring).take capSlots
  (written, 4 * written.length)

/-- One breadth-first level scan of §4.4: all direct link entries of the
frontier keyrings, in link order. -/
def levelEntries (st : KState) (frontier : List Nat) : List Nat :=
  frontier.flatMap st.ringLinks

/-- Modelled from the spec: §4.4 — breadth-first recursive descent: scan the
current level's entries for the first key with an exactly matching
description, else recurse into the child keyrings of this level.  Depth is
bounded by the kernel constant KEYRING_SEARCH_MAX_DEPTH = 6 (quoted in the
`link_key` doc comment, src/keyring.rs:192–197). -/
def bfsFind (st : KState) (d : String) : List Nat → Nat → Option Nat
  | _, 0 => none
  | frontier, fuel + 1 =>
    let es := levelEntries st frontier
    match es.find? (fun i => st.isKeyWithDesc i d) with
    | some k => some k
    | none => bfsFind st d (es.filter st.isRing) fuel

/-- Modelled from the spec: §4.4 — the KEYCTL_SEARCH operation: breadth-first
search from the root keyring; on a hit, if the destination-keyring argument
is non-zero the found key is additionally linked into it; no match yields
`KeyDoesNotExist`. -/
def kSearch (st : KState) (root : Nat) (d : String) (dest : Nat) :
    KState × Except KeyError Nat :=
  if st.isRing root then
    match bfsFind st d [root] 6 with
    | some k => (if dest = 0 then st else kAddLink st dest k, .ok k)
    | none => (st, .error KeyError.KeyDoesNotExist)
  else (st, .error KeyError.KeyDoesNotExist)

/-- Modelled from the spec: §4.3/§6 — the dedicated `addKey` creation
primitive for the generic User type: description encodability is validated
locally (§7); an existing key of matching type+description in the
destination keyring is updated in place (same serial, User keys support
update), otherwise a fresh key is created and linked. -/
def kAddKey (st : KState) (dest : Nat) (d : String) (payload : List UInt8) :
    KState × Except KeyError Nat :=
  if hasNul d then (st, .error KeyError.InvalidDescription)
  else
    match st.objInfo dest with
    | some dinfo =>
      if dinfo.kind = ObjKind.KeyRing then
        match (st.ringLinks dest).find? (fun i => st.isKeyWithDesc i d) with
        | some k =>
          ({ st with objs := setA st.objs k ⟨ObjKind.Key, d, payload⟩ }, .ok k)
        | none =>
          let i := st.next
          let st1 :=
            { st with
                next := st.next + 1
                objs := setA st.objs i ⟨ObjKind.Key, d, payload⟩ }
          (kAddLink st1 dest i, .ok i)
      else (st, .error (KeyError.Other 25))
    | none => (st, .error KeyError.KeyDoesNotExist)

/-- Modelled from the spec: §3 — Link Graph Node: a tagged union recording
whether a decoded identifier denotes a leaf key or a keyring (`LinkNode`
lives outside `src/`). -/
inductive LinkNode where
  | key (id : Nat)
  | keyRing (id : Nat)
deriving DecidableEq

/-- The raw identifier a node carries. -/
def LinkNode.nodeId : LinkNode → Nat
  | .key i => i
  | .keyRing i => i

/-- Modelled from the spec: §3/§4.5 — `LinkNode::from_id`: attempt metadata
resolution of a raw identifier and classify by reported object type; an
unresolvable identifier yields no node. -/
def LinkNode.from_id (st : KState) (i : Nat) : Option LinkNode :=
  match st.objInfo i with
  | some info =>
    match info.kind with
    | ObjKind.Key => some (LinkNode.key i)
    | ObjKind.KeyRing => some (LinkNode.keyRing i)
  | none => none

/-- Modelled from the spec: §3 — Link Collection: an ordered sequence of Link
Graph Nodes (`Links` lives outside `src/`). -/
abbrev Links := List LinkNode

/-- Modelled from the spec: §3 — membership in a Link Collection by
identifier equality. -/
def Links.containsId (l : Links) (i : Nat) : Bool :=
  l.any (fun n => decide (n.nodeId = i))

/-- `Key` — wraps one Identifier denoting a leaf secret (§3; the `Key` type
lives outside `src/`). -/
structure Key where
  id : KeySerialId
deriving DecidableEq

/-- `Key::get_id`. -/
def Key.get_id (k : Key) : KeySerialId := k.id

/-- `KeyRing` (src/keyring.rs:8–11): wraps exactly one Identifier. -/
structure KeyRing where
  id : KeySerialId
deriving DecidableEq

/-- `KeyRing::from_id` (src/keyring.rs:15–17). -/
def KeyRing.from_id (id : KeySerialId) : KeyRing := ⟨id⟩

/-- `KeyRing::from_special_id` (src/keyring.rs:27–36), with the gateway
response as an explicit parameter: the body after the `keyctl!` call —
error pass-through, then `try_into().or(Err(KeyError::InvalidIdentifier))`. -/
def KeyRing.from_special_id_core (resp : Except KeyError Nat) :
    Except KeyError KeyRing :=
  match resp with
  | .error e => .error e
  | .ok raw =>
    match KeySerialId.tryFrom raw with
    | some i => .ok { id := i }
    | none => .error KeyError.InvalidIdentifier

/-- `KeyRing::from_special_id` (src/keyring.rs:27–36) run against the
modelled kernel: KEYCTL_GET_KEYRING_ID with the special id and the
create flag, then the post-call validation. -/
def KeyRing.from_special_id (st : KState) (id : KeyRingIdentifier) (create : Bool) :
    KState × Except KeyError KeyRing :=
  let r := kGetKeyRingId st id create
  (r.1, KeyRing.from_special_id_core r.2)

/-- `KeyRing::get_persistent` (src/keyring.rs:57–66), with the gateway
response as an explicit parameter: error pass-through, then
`try_into().or(Err(KeyError::InvalidIdentifier))`. -/
def KeyRing.get_persistent_core (resp : Except KeyError Nat) :
    Except KeyError KeyRing :=
  match resp with
  | .error e => .error e
  | .ok raw =>
    match KeySerialId.tryFrom raw with
    | some i => .ok { id := i }
    | none => .error KeyError.InvalidIdentifier

/-- `KeyRing::get_persistent` (src/keyring.rs:57–66) run against the
modelled kernel: KEYCTL_GET_PERSISTENT with the uid sentinel and the
link-target special id, then the post-call validation. -/
def KeyRing.get_persistent (st : KState) (link_with : KeyRingIdentifier) :
    KState × Except KeyError KeyRing :=
  let r := kGetPersistent st link_with
  (r.1, KeyRing.get_persistent_core r.2)

/-- `KeyRing::add_key` (src/keyring.rs:84–96): the `ffi::add_key` creation
primitive with this keyring as destination; the returned serial is wrapped
as a `Key`. -/
def KeyRing.add_key (st : KState) (self : KeyRing) (description : String)
    (secret : List UInt8) : KState × Except KeyError Key :=
  match kAddKey st self.id.raw.toNat description secret with
  | (st1, .ok i) => (st1, .ok { id := ⟨Int.ofNat i⟩ })
  | (st1, .error e) => (st1, .error e)

/-- `KeyRing::search` (src/keyring.rs:136–154), with the gateway response as
an explicit parameter: the `CString::new` null-check producing
`InvalidDescription`, then error pass-through and the post-call
`try_into().or(Err(KeyError::InvalidIdentifier))`. -/
def KeyRing.search_core (description : String) (resp : Except KeyError Nat) :
    Except KeyError Key :=
  if hasNul description then .error KeyError.InvalidDescription
  else
    match resp with
    | .error e => .error e
    | .ok raw =>
      match KeySerialId.tryFrom raw with
      | some i => .ok { id := i }
      | none => .error KeyError.InvalidIdentifier

/-- `KeyRing::search` (src/keyring.rs:136–154) run against the modelled
kernel.  The description is validated null-free before any kernel call;
KEYCTL_SEARCH is issued with `0` as its fourth, destination-keyring
argument (the literal at src/keyring.rs:147). -/
def KeyRing.search (st : KState) (self : KeyRing) (description : String) :
    KState × Except KeyError Key :=
  if hasNul description then (st, .error KeyError.InvalidDescription)
  else
    match kSearch st self.id.raw.toNat description 0 with
    | (st1, .error e) => (st1, .error e)
    | (st1, .ok raw) =>
      match KeySerialId.tryFrom raw with
      | some i => (st1, .ok { id := i })
      | none => (st1, .error KeyError.InvalidIdentifier)

/-- `KeyRing::get_links` (src/keyring.rs:163–185), with the gateway response
and the classifier as explicit parameters: `buffer` is the list of
identifier slots the kernel initialized, `resp` the gateway result whose ok
value is the reported byte count; the body sets the vector length to
`len / size_of::<KeySerialId>()` (= 4 bytes) and filter-maps
`LinkNode::from_id(..).ok()` over it. -/
def KeyRing.get_links_core (classify : Nat → Option LinkNode)
    (resp : Except KeyError Nat) (buffer : List Nat) : Except KeyError Links :=
  match resp with
  | .error e => .error e
  | .ok len => .ok ((buffer.take (len / 4)).filterMap classify)

/-- `KeyRing::get_links` (src/keyring.rs:163–185) run against the modelled
kernel: allocate `max` identifier slots, KEYCTL_READ into them, decode. -/
def KeyRing.get_links (st : KState) (self : KeyRing) (max : Nat) :
    Except KeyError Links :=
  let r := kRead st self.id.raw.toNat max
  KeyRing.get_links_core (LinkNode.from_id st) (.ok r.2) r.1

/-- `KeyRing::link_key` (src/keyring.rs:201–208): KEYCTL_LINK with the key's
serial as source and this keyring as destination. -/
def KeyRing.link_key (st : KState) (self : KeyRing) (key : Key) :
    KState × Except KeyError Unit :=
  kLink st key.id.raw self.id.raw.toNat

/-- `KeyRing::unlink_key` (src/keyring.rs:217–224): KEYCTL_UNLINK with the
key's serial as source and this keyring as destination. -/
def KeyRing.unlink_key (st : KState) (self : KeyRing) (key : Key) :
    KState × Except KeyError Unit :=
  kUnlink st key.id.raw self.id.raw.toNat

/-- `KeyRing::link_keyring` (src/keyring.rs:231–238). -/
def KeyRing.link_keyring (st : KState) (self : KeyRing) (keyring : KeyRing) :
    KState × Except KeyError Unit :=
  kLink st keyring.id.raw self.id.raw.toNat

/-- `KeyRing::unlink_keyring` (src/keyring.rs:245–252). -/
def KeyRing.unlink_keyring (st : KState) (self : KeyRing) (keyring : KeyRing) :
    KState × Except KeyError Unit :=
  kUnlink st keyring.id.raw self.id.raw.toNat

/-- `KeyRing::link_keyring_id` (src/keyring.rs:263–270): KEYCTL_LINK with the
special identifier's raw sentinel value as source. -/
def KeyRing.link_keyring_id (st : KState) (self : KeyRing)
    (keyringid : KeyRingIdentifier) : KState × Except KeyError Unit :=
  kLink st keyringid.rawValue self.id.raw.toNat

/-- `KeyRing::unlink_keyring_id` (src/keyring.rs:281–288): KEYCTL_UNLINK with
the special identifier's raw sentinel value as source. -/
def KeyRing.unlink_keyring_id (st : KState) (self : KeyRing)
    (keyringid : KeyRingIdentifier) : KState × Except KeyError Unit :=
  kUnlink st keyringid.rawValue self.id.raw.toNat

/-- The decoding procedure in the words of §4.5: interpret the returned byte
count as `count / sizeOf(Identifier)` whole entries, ignoring any trailing
partial entry (fewer than 4 bytes left); for each raw identifier attempt
classification, dropping entries that cannot be classified.  A second,
independent rendering (byte-count countdown) to compare with the decoding
done by `KeyRing.get_links_core`, which is translated from the source. -/
def decodeLinksSpec (classify : Nat → Option LinkNode) : Nat → List Nat → Links
  | count, x :: rest =>
    if 4 ≤ count then
      match classify x with
      | some node => node :: decodeLinksSpec classify (count - 4) rest
      | none => decodeLinksSpec classify (count - 4) rest
    else []
  | _, [] => []

/-- Well-formedness of a modelled kernel state: the serial allocator is ahead
of every live serial, serials are positive, the persistent keyring is
distinct from every special slot's keyring, and every link points at an
existing object. -/
structure WFState (st : KState) : Prop where
  pos_next : 0 < st.next
  specials_range : ∀ s i, lookupA st.specials s = some i → 0 < i ∧ i < st.next
  persistent_range : ∀ p, st.persistent = some p → 0 < p ∧ p < st.next
  persistent_fresh : ∀ p s i, st.persistent = some p →
    lookupA st.specials s = some i → i ≠ p
  persistent_obj : ∀ p, st.persistent = some p → (st.objInfo p).isSome = true
  objs_range : ∀ i info, lookupA st.objs i = some info → 0 < i ∧ i < st.next
  links_objs : ∀ r i, i ∈ st.ringLinks r → (st.objInfo i).isSome = true

/-- Executable well-formedness check used to build concrete witness states. -/
def WFb (st : KState) : Bool :=
  decide (0 < st.next) &&
  st.specials.all (fun p => decide (0 < p.2 ∧ p.2 < st.next)) &&
  (match st.persistent with
   | some p =>
     decide (0 < p ∧ p < st.next) &&
     st.specials.all (fun q => decide (q.2 ≠ p)) &&
     (lookupA st.objs p).isSome
   | none => true) &&
  st.objs.all (fun p => decide (0 < p.1 ∧ p.1 < st.next)) &&
  st.links.all (fun p => p.2.all (fun i => (lookupA st.objs i).isSome))

/-- A concrete well-formed kernel state: one existing, empty, real keyring
with serial 1, registered as the User slot. -/
def exSt : KState :=
  { next := 2
    specials := [(KeyRingIdentifier.User, 1)]
    persistent := none
    objs := [(1, ⟨ObjKind.KeyRing, "", []⟩)]
    links := [(1, [])] }

/-- The wrapper for the concrete keyring of `exSt`. -/
def exRing : KeyRing := ⟨⟨1⟩⟩

/-- A concrete well-formed kernel state: the keyring of `exSt` plus an
existing, unlinked key with serial 2. -/
def exSt2 : KState :=
  { next := 3
    specials := [(KeyRingIdentifier.User, 1)]
    persistent := none
    objs := [(1, ⟨ObjKind.KeyRing, "", []⟩), (2, ⟨ObjKind.Key, "k", [7]⟩)]
    links := [(1, [])] }

/-- The wrapper for the concrete key of `exSt2`. -/
def exKey : Key := ⟨⟨2⟩⟩

/-- `exSt2` after linking key 2 into keyring 1. -/
def exSt2L : KState := (KeyRing.link_key exSt2 exRing exKey).1

/-- `exSt2L` after unlinking key 2 from keyring 1. -/
def exSt2U : KState := (KeyRing.unlink_key exSt2L exRing exKey).1

/-- `exSt` after adding a key with description "d" to keyring 1. -/
def exStA : KState := (KeyRing.add_key exSt exRing "d" [7]).1

/-- `exSt` after one `get_persistent` call linking into the User slot. -/
def exStP1 : KState := (KeyRing.get_persistent exSt KeyRingIdentifier.User).1

/-- `exStP1` after a second `get_persistent` call. -/
def exStP2 : KState :=
  (KeyRing.get_persistent exStP1 KeyRingIdentifier.User).1

/-! ## Helper lemmas -/

theorem lookupA_mem {α β : Type} [DecidableEq α] {l : List (α × β)} {a : α}
    {b : β} (h : lookupA l a = some b) : (a, b) ∈ l := by
  induction l with
  | nil => simp [lookupA] at h
  | cons hd t ih =>
    obtain ⟨x, y⟩ := hd
    simp only [lookupA] at h
    split at h
    · rename_i hax
      cases h
      subst hax
      exact List.mem_cons_self _ _
    · exact List.mem_cons_of_mem _ (ih h)

theorem lookupA_setA_self {α β : Type} [DecidableEq α] (l : List (α × β))
    (a : α) (b : β) : lookupA (setA l a b) a = some b := by
  induction l with
  | nil => simp [setA, lookupA]
  | cons hd t ih =>
    obtain ⟨x, y⟩ := hd
    simp only [setA]
    split
    · rename_i hax
      simp [lookupA]
    · rename_i hax
      simp only [lookupA, if_neg hax]
      exact ih

theorem lookupA_setA_ne {α β : Type} [DecidableEq α] (l : List (α × β))
    (a x : α) (b : β) (h : x ≠ a) : lookupA (setA l a b) x = lookupA l x := by
  induction l with
  | nil => simp [setA, lookupA, h]
  | cons hd t ih =>
    obtain ⟨u, v⟩ := hd
    simp only [setA]
    split
    · rename_i hau
      subst hau
      simp [lookupA, h]
    · simp only [lookupA]
      split
      · rfl
      · exact ih

/-- If `find?` finds `a` under `p`, and `q` agrees with `p` away from `a` and
holds at `a`, then `find?` under `q` also finds `a`. -/
theorem find?_congr_at {α : Type} {l : List α} {p q : α → Bool} {a : α}
    (h : l.find? p = some a) (hqa : q a = true)
    (hcong : ∀ x, x ≠ a → q x = p x) : l.find? q = some a := by
  have hpa : p a = true := List.find?_some h
  induction l with
  | nil => simp at h
  | cons hd t ih =>
    by_cases hh : hd = a
    · subst hh
      rw [List.find?_cons_of_pos _ hqa]
    · have hphd : p hd = false := by
        by_contra hc
        have : p hd = true := by
          cases hv : p hd
          · exact absurd hv hc
          · rfl
        rw [List.find?_cons_of_pos _ this] at h
        cases h
        exact hh rfl
      have hqhd : q hd = false := by rw [hcong hd hh]; exact hphd
      rw [List.find?_cons_of_neg _ (by simp [hqhd])]
      rw [List.find?_cons_of_neg _ (by simp [hphd])] at h
      exact ih h

/-- The spec-worded byte-count-countdown decode equals taking
`count / 4` whole entries and filter-mapping the classifier. -/
theorem decodeLinksSpec_eq_take (classify : Nat → Option LinkNode) :
    ∀ (buffer : List Nat) (count : Nat),
      decodeLinksSpec classify count buffer =
        (buffer.take (count / 4)).filterMap classify := by
  intro buffer
  induction buffer with
  | nil => intro count; simp [decodeLinksSpec]
  | cons x rest ih =>
    intro count
    by_cases h : 4 ≤ count
    · have hdiv : count / 4 = (count - 4) / 4 + 1 :=
        Nat.div_eq_sub_div (by norm_num) h
      rw [hdiv]
      simp only [decodeLinksSpec, if_pos h, List.take_succ_cons,
        List.filterMap_cons]
      cases hc : classify x with
      | none => simp [ih]
      | some node => simp [ih]
    · have hlt : count < 4 := Nat.lt_of_not_le h
      have hdiv : count / 4 = 0 := Nat.div_eq_of_lt hlt
      rw [hdiv]
      simp [decodeLinksSpec, if_neg h]

/-- A `WFb`-checked state is well formed. -/
theorem wfState_of_wfb {st : KState} (h : WFb st = true) : WFState st := by
  unfold WFb at h
  simp only [Bool.and_eq_true, decide_eq_true_eq, List.all_eq_true] at h
  obtain ⟨⟨⟨⟨hnext, hspec⟩, hpers⟩, hobj⟩, hlinks⟩ := h
  refine ⟨hnext, ?_, ?_, ?_, ?_, ?_, ?_⟩
  · intro s i hl
    exact hspec _ (lookupA_mem hl)
  · intro p hp
    rw [hp] at hpers
    simp only [Bool.and_eq_true, decide_eq_true_eq] at hpers
    exact hpers.1.1
  · intro p s i hp hl
    rw [hp] at hpers
    simp only [Bool.and_eq_true, decide_eq_true_eq, List.all_eq_true] at hpers
    exact hpers.1.2 _ (lookupA_mem hl)
  · intro p hp
    rw [hp] at hpers
    simp only [Bool.and_eq_true, decide_eq_true_eq] at hpers
    exact hpers.2
  · intro i info hl
    exact hobj _ (lookupA_mem hl)
  · intro r i hi
    unfold KState.ringLinks at hi
    cases hl : lookupA st.links r with
    | none => rw [hl] at hi; simp at hi
    | some ll =>
      rw [hl] at hi
      simp only [Option.getD_some] at hi
      exact hlinks _ (lookupA_mem hl) _ hi

/-- A classified node carries the identifier it was classified from. -/
theorem from_id_nodeId {st : KState} {i : Nat} {n : LinkNode}
    (h : LinkNode.from_id st i = some n) : n.nodeId = i := by
  unfold LinkNode.from_id at h
  split at h
  · split at h
    · injection h with h
      subst h
      rfl
    · injection h with h
      subst h
      rfl
  · cases h

/-- Characterization of a successful KEYCTL_LINK with a positive (real
object) source: the source exists, the destination is an existing keyring,
and the state evolves by `kAddLink`. -/
theorem kLink_pos_ok {st st' : KState} {src : Int} {dest : Nat}
    (hpos : 0 < src) (h : kLink st src dest = (st', Except.ok ())) :
    (∃ sinfo, st.objInfo src.toNat = some sinfo) ∧
    (∃ dinfo, st.objInfo dest = some dinfo ∧ dinfo.kind = ObjKind.KeyRing) ∧
    st' = kAddLink st dest src.toNat := by
  unfold kLink at h
  rw [if_pos hpos] at h
  split at h
  · rename_i sinfo hoi
    replace h : (match st.objInfo dest with
      | some dinfo =>
        if dinfo.kind = ObjKind.KeyRing then
          (kAddLink st dest src.toNat, Except.ok ())
        else (st, Except.error (KeyError.Other 25))
      | none => (st, Except.error KeyError.KeyDoesNotExist)) =
        (st', Except.ok ()) := h
    split at h
    · rename_i dinfo hdo
      split at h
      · rename_i hk
        injection h with hA _
        exact ⟨⟨sinfo, hoi⟩, ⟨dinfo, hdo, hk⟩, hA.symm⟩
      · simp at h
    · simp at h
  · simp at h

/-- Characterization of a successful KEYCTL_UNLINK with a positive source:
the link existed and is removed from the destination's link list. -/
theorem kUnlink_pos_ok {st st' : KState} {src : Int} {dest : Nat}
    (hpos : 0 < src) (h : kUnlink st src dest = (st', Except.ok ())) :
    src.toNat ∈ st.ringLinks dest ∧
    st' = { st with links := setA st.links dest ((st.ringLinks dest).filter (fun i => decide (i ≠ src.toNat))) } := by
  unfold kUnlink at h
  rw [if_pos hpos] at h
  replace h : (if src.toNat ∈ st.ringLinks dest then
      (({ st with links := setA st.links dest ((st.ringLinks dest).filter (fun i => decide (i ≠ src.toNat))) }, Except.ok ()) : KState × Except KeyError Unit)
    else (st, Except.error KeyError.KeyDoesNotExist)) = (st', Except.ok ()) := h
  split at h
  · rename_i hmem
    injection h with hA _
    exact ⟨hmem, hA.symm⟩
  · simp at h

/-- Adding a link changes only the link graph. -/
theorem kAddLink_objs (st : KState) (dest src : Nat) :
    (kAddLink st dest src).objs = st.objs := rfl

/-- Adding a link does not touch the persistent-keyring slot. -/
theorem kAddLink_persistent (st : KState) (dest src : Nat) :
    (kAddLink st dest src).persistent = st.persistent := rfl

/-- Adding a link does not touch the special-slot table. -/
theorem kAddLink_specials (st : KState) (dest src : Nat) :
    (kAddLink st dest src).specials = st.specials := rfl

/-- Adding a link does not touch the serial allocator. -/
theorem kAddLink_next (st : KState) (dest src : Nat) :
    (kAddLink st dest src).next = st.next := rfl

/-- A lookup in an updated association list hits either the update or the
old list. -/
theorem lookupA_setA_cases {α β : Type} [DecidableEq α] {l : List (α × β)}
    {a x : α} {b y : β} (h : lookupA (setA l a b) x = some y) :
    (x = a ∧ y = b) ∨ lookupA l x = some y := by
  by_cases hx : x = a
  · subst hx
    rw [lookupA_setA_self] at h
    injection h with h
    exact Or.inl ⟨rfl, h.symm⟩
  · rw [lookupA_setA_ne _ _ _ _ hx] at h
    exact Or.inr h

/-- Characterization of KEYCTL_GET_PERSISTENT on a well-formed state: it
always succeeds, the returned serial is recorded as the persistent keyring
(reused if it existed, freshly allocated otherwise), it stays below the
allocator, and any special slot surviving the call either predates it or
was created with a serial above the returned one. -/
theorem kGetPersistent_ok (st : KState) (L : KeyRingIdentifier)
    (hwf : WFState st) :
    ∃ st' pid,
      kGetPersistent st L = (st', Except.ok pid) ∧
      st'.persistent = some pid ∧
      (st.persistent = some pid ∨ (st.persistent = none ∧ pid = st.next)) ∧
      pid < st'.next ∧
      (∀ s i, lookupA st'.specials s = some i →
        lookupA st.specials s = some i ∨ pid < i) := by
  cases hp : st.persistent with
  | some p =>
    have hrange := hwf.persistent_range p hp
    cases hL : lookupA st.specials L with
    | some d =>
      refine ⟨kAddLink st d p, p, ?_, ?_, Or.inl rfl, ?_, ?_⟩
      · simp [kGetPersistent, hp, kGetKeyRingId, hL]
      · rw [kAddLink_persistent]
        exact hp
      · rw [kAddLink_next]
        exact hrange.2
      · intro s i hl
        rw [kAddLink_specials] at hl
        exact Or.inl hl
    | none =>
      refine ⟨kAddLink
        { st with
            next := st.next + 1
            specials := setA st.specials L st.next
            objs := setA st.objs st.next ⟨ObjKind.KeyRing, "", []⟩ }
        st.next p, p, ?_, ?_, Or.inl rfl, ?_, ?_⟩
      · simp [kGetPersistent, hp, kGetKeyRingId, hL]
      · rw [kAddLink_persistent]
        exact hp
      · rw [kAddLink_next]
        exact Nat.lt_succ_of_lt hrange.2
      · intro s i hl
        rw [kAddLink_specials] at hl
        rcases lookupA_setA_cases hl with ⟨_, hib⟩ | hold
        · exact Or.inr (hib ▸ hrange.2)
        · exact Or.inl hold
  | none =>
    cases hL : lookupA st.specials L with
    | some d =>
      refine ⟨kAddLink
        { st with
            next := st.next + 1
            persistent := some st.next
            objs := setA st.objs st.next ⟨ObjKind.KeyRing, "_persistent", []⟩ }
        d st.next, st.next, ?_, ?_, Or.inr ⟨rfl, rfl⟩, ?_, ?_⟩
      · simp [kGetPersistent, hp, kGetKeyRingId, hL]
      · rw [kAddLink_persistent]
      · rw [kAddLink_next]
        exact Nat.lt_succ_self st.next
      · intro s i hl
        rw [kAddLink_specials] at hl
        exact Or.inl hl
    | none =>
      refine ⟨kAddLink
        { st with
            next := st.next + 1 + 1
            persistent := some st.next
            specials := setA st.specials L (st.next + 1)
            objs := setA
              (setA st.objs st.next ⟨ObjKind.KeyRing, "_persistent", []⟩)
              (st.next + 1) ⟨ObjKind.KeyRing, "", []⟩ }
        (st.next + 1) st.next, st.next, ?_, ?_, Or.inr ⟨rfl, rfl⟩, ?_, ?_⟩
      · simp [kGetPersistent, hp, kGetKeyRingId, hL]
      · rw [kAddLink_persistent]
      · rw [kAddLink_next]
        show st.next < st.next + 1 + 1
        omega
      · intro s i hl
        rw [kAddLink_specials] at hl
        rcases lookupA_setA_cases hl with ⟨_, hib⟩ | hold
        · exact Or.inr (by rw [hib]; exact Nat.lt_succ_self st.next)
        · exact Or.inl hold

/-- KEYCTL_GET_PERSISTENT when the persistent keyring already exists: the
same serial is returned again, and any special slot surviving the call
either predates it or was created at or above the old allocator mark. -/
theorem kGetPersistent_existing (st : KState) (L : KeyRingIdentifier)
    (p : Nat) (hp : st.persistent = some p) :
    ∃ st', kGetPersistent st L = (st', Except.ok p) ∧
      (∀ s i, lookupA st'.specials s = some i →
        lookupA st.specials s = some i ∨ st.next ≤ i) := by
  cases hL : lookupA st.specials L with
  | some d =>
    refine ⟨kAddLink st d p, ?_, ?_⟩
    · simp [kGetPersistent, hp, kGetKeyRingId, hL]
    · intro s i hl
      rw [kAddLink_specials] at hl
      exact Or.inl hl
  | none =>
    refine ⟨kAddLink
      { st with
          next := st.next + 1
          specials := setA st.specials L st.next
          objs := setA st.objs st.next ⟨ObjKind.KeyRing, "", []⟩ }
      st.next p, ?_, ?_⟩
    · simp [kGetPersistent, hp, kGetKeyRingId, hL]
    · intro s i hl
      rw [kAddLink_specials] at hl
      rcases lookupA_setA_cases hl with ⟨_, hib⟩ | hold
      · exact Or.inr (le_of_eq hib.symm)
      · exact Or.inl hold

/-- The link list of `dest` after `kAddLink`: surviving entries followed by
the new link. -/
theorem kAddLink_ringLinks (st : KState) (dest src : Nat) (info : ObjInfo)
    (h : st.objInfo src = some info) :
    (kAddLink st dest src).ringLinks dest =
      (st.ringLinks dest).filter (fun i => !st.sameTypeDesc i info) ++ [src] := by
  unfold kAddLink KState.ringLinks
  rw [h]
  simp [lookupA_setA_self]

/-! ## Claims -/

/-- C1: For every successful `get_links(max)` call, the returned collection
is obtained from the kernel-reported byte count `n` by decoding exactly
`n / sizeOf(Identifier)` whole identifier entries (any trailing partial
entry is ignored), classifying each raw identifier via metadata lookup, and
dropping every entry whose classification fails rather than failing the
whole call: for every reported count and buffer, the source-translated
decode returns `ok` of the spec-worded decode. -/
theorem get_links_decodes_per_spec (classify : Nat → Option LinkNode)
    (n : Nat) (buffer : List Nat) :
    KeyRing.get_links_core classify (Except.ok n) buffer =
      Except.ok (decodeLinksSpec classify n buffer) := by
  unfold KeyRing.get_links_core
  rw [decodeLinksSpec_eq_take]

/-- C2: For every keyring, `get_links` with `max = 0` succeeds and returns
the empty collection, never an error, whatever the keyring's links are. -/
theorem get_links_zero_empty (st : KState) (self : KeyRing) :
    KeyRing.get_links st self 0 = Except.ok [] := by
  simp [KeyRing.get_links, kRead, KeyRing.get_links_core]

/-- C3: For every special identifier `S`, `from_special_id(S, create=true)`
succeeds with a positive Identifier; `from_special_id(S, create=false)` on
a special keyring the kernel never instantiated fails with
`KeyDoesNotExist`; and a raw gateway return value failing range validation
makes the call fail with `InvalidIdentifier`. -/
theorem from_special_id_spec (st : KState) (S : KeyRingIdentifier)
    (hwf : WFState st) (hb : st.next < 2 ^ 31) :
    (∃ R : KeyRing,
      (KeyRing.from_special_id st S true).2 = Except.ok R ∧ 0 < R.id.raw)
    ∧ (lookupA st.specials S = none →
        (KeyRing.from_special_id st S false).2 =
          Except.error KeyError.KeyDoesNotExist)
    ∧ (∀ raw, KeySerialId.tryFrom raw = none →
        KeyRing.from_special_id_core (Except.ok raw) =
          Except.error KeyError.InvalidIdentifier) := by
  refine ⟨?_, ?_, ?_⟩
  · cases hl : lookupA st.specials S with
    | some i =>
      have hi := hwf.specials_range S i hl
      have htf : KeySerialId.tryFrom i = some ⟨Int.ofNat i⟩ := by
        unfold KeySerialId.tryFrom
        rw [if_pos (lt_trans hi.2 hb)]
      refine ⟨⟨⟨Int.ofNat i⟩⟩, ?_, ?_⟩
      · simp [KeyRing.from_special_id, kGetKeyRingId, hl,
          KeyRing.from_special_id_core, htf]
      · show (0 : Int) < (i : Int)
        exact_mod_cast hi.1
    | none =>
      have htf : KeySerialId.tryFrom st.next = some ⟨Int.ofNat st.next⟩ := by
        unfold KeySerialId.tryFrom
        rw [if_pos hb]
      refine ⟨⟨⟨Int.ofNat st.next⟩⟩, ?_, ?_⟩
      · simp [KeyRing.from_special_id, kGetKeyRingId, hl,
          KeyRing.from_special_id_core, htf]
      · show (0 : Int) < (st.next : Int)
        exact_mod_cast hwf.pos_next
  · intro hl
    simp [KeyRing.from_special_id, kGetKeyRingId, hl,
      KeyRing.from_special_id_core]
  · intro raw hr
    simp [KeyRing.from_special_id_core, hr]

/-- Witness for C3, at the concrete state `exSt` and the Session slot. -/
theorem from_special_id_spec_witness :
    (∃ R : KeyRing,
      (KeyRing.from_special_id exSt KeyRingIdentifier.Session true).2 =
        Except.ok R ∧ 0 < R.id.raw)
    ∧ (lookupA exSt.specials KeyRingIdentifier.Session = none →
        (KeyRing.from_special_id exSt KeyRingIdentifier.Session false).2 =
          Except.error KeyError.KeyDoesNotExist)
    ∧ (∀ raw, KeySerialId.tryFrom raw = none →
        KeyRing.from_special_id_core (Except.ok raw) =
          Except.error KeyError.InvalidIdentifier) :=
  from_special_id_spec exSt KeyRingIdentifier.Session
    (wfState_of_wfb (by decide)) (by decide)

/-- C5: A description with an embedded NUL byte makes `search` fail with
`InvalidDescription` locally, before any kernel call (the state is
untouched); for a NUL-free description the result is exactly the
pass-through-plus-range-check of the gateway's search response
(`search_core`): the two local validations are the only ones. -/
theorem search_nul_rejected_locally (st : KState) (self : KeyRing) (d : String) :
    (hasNul d = true →
      KeyRing.search st self d = (st, Except.error KeyError.InvalidDescription))
    ∧ (hasNul d = false →
      KeyRing.search st self d =
        ((kSearch st self.id.raw.toNat d 0).1,
          KeyRing.search_core d (kSearch st self.id.raw.toNat d 0).2)) := by
  constructor
  · intro h
    simp [KeyRing.search, h]
  · intro h
    rcases hks : kSearch st self.id.raw.toNat d 0 with ⟨st1, r⟩
    cases r with
    | error e => simp [KeyRing.search, h, hks, KeyRing.search_core]
    | ok raw =>
      cases htf : KeySerialId.tryFrom raw with
      | some i => simp [KeyRing.search, h, hks, KeyRing.search_core, htf]
      | none => simp [KeyRing.search, h, hks, KeyRing.search_core, htf]

/-- Witness for C5: a one-NUL-character description at the concrete state. -/
theorem search_nul_rejected_locally_witness :
    hasNul (String.mk [Char.ofNat 0]) = true ∧
    KeyRing.search exSt exRing (String.mk [Char.ofNat 0]) =
      (exSt, Except.error KeyError.InvalidDescription) :=
  ⟨by decide,
    (search_nul_rejected_locally exSt exRing (String.mk [Char.ofNat 0])).1
      (by decide)⟩

/-- The modelled KEYCTL_SEARCH with destination-keyring argument `0` never
changes the kernel state. -/
theorem kSearch_dest_zero_fst (st : KState) (root : Nat) (d : String) :
    (kSearch st root d 0).1 = st := by
  unfold kSearch
  split
  · cases bfsFind st d [root] 6 with
    | some k => simp
    | none => rfl
  · rfl

/-- C9: `search` always passes `0` as the destination-keyring argument of
KEYCTL_SEARCH (src/keyring.rs:147), so a successful search never links the
found key anywhere: the kernel state, and with it the keyring link graph,
is unchanged by every `search` call. -/
theorem search_never_mutates (st : KState) (self : KeyRing) (d : String) :
    (KeyRing.search st self d).1 = st := by
  unfold KeyRing.search
  split
  · rfl
  · rcases hks : kSearch st self.id.raw.toNat d 0 with ⟨st1, r⟩
    have h1 : st1 = st := by
      have := kSearch_dest_zero_fst st self.id.raw.toNat d
      rw [hks] at this
      exact this
    subst h1
    cases r with
    | error e => simp [hks]
    | ok raw =>
      cases htf : KeySerialId.tryFrom raw with
      | some i => simp [hks, htf]
      | none => simp [hks, htf]

/-- C10: `get_persistent` performs the same post-call identifier range
validation as `from_special_id`: every raw gateway return value failing
range validation makes it fail with `InvalidIdentifier`, and its response
handling coincides with `from_special_id`'s on every response. -/
theorem get_persistent_invalid_identifier :
    (∀ raw, KeySerialId.tryFrom raw = none →
      KeyRing.get_persistent_core (Except.ok raw) =
        Except.error KeyError.InvalidIdentifier)
    ∧ ∀ resp, KeyRing.get_persistent_core resp =
        KeyRing.from_special_id_core resp := by
  constructor
  · intro raw hr
    simp [KeyRing.get_persistent_core, hr]
  · intro resp
    rfl

/-- Witness for C10: the first out-of-range raw value. -/
theorem get_persistent_invalid_identifier_witness :
    KeySerialId.tryFrom (2 ^ 31) = none ∧
    KeyRing.get_persistent_core (Except.ok (2 ^ 31)) =
      Except.error KeyError.InvalidIdentifier :=
  ⟨by decide, get_persistent_invalid_identifier.1 (2 ^ 31) (by decide)⟩

/-- The raw sentinel of every special slot decodes back to that slot. -/
theorem ofRaw_rawValue (S : KeyRingIdentifier) :
    KeyRingIdentifier.ofRaw S.rawValue = some S := by
  cases S <;> decide

/-- The raw sentinel of a special slot is never positive. -/
theorem rawValue_not_pos (S : KeyRingIdentifier) : ¬ (0 < S.rawValue) := by
  cases S <;> decide

/-- C4: For a special keyring `S` the kernel never instantiated:
`link_keyring_id(S)` into an existing keyring succeeds and causes `S` to
exist afterwards (a subsequent `from_special_id(S, false)` succeeds),
whereas `unlink_keyring_id(S)` fails with `KeyDoesNotExist` and leaves the
kernel state — in particular `S` — uncreated. -/
theorem link_creates_unlink_rejects (st : KState) (self : KeyRing)
    (S : KeyRingIdentifier) (hwf : WFState st) (hb : st.next < 2 ^ 31)
    (hS : lookupA st.specials S = none)
    (hR : st.isRing self.id.raw.toNat = true) :
    ((KeyRing.link_keyring_id st self S).2 = Except.ok () ∧
      ∃ R2 : KeyRing,
        (KeyRing.from_special_id (KeyRing.link_keyring_id st self S).1 S
            false).2 = Except.ok R2 ∧ 0 < R2.id.raw)
    ∧ KeyRing.unlink_keyring_id st self S =
        (st, Except.error KeyError.KeyDoesNotExist) := by
  have hneg := rawValue_not_pos S
  have hofraw := ofRaw_rawValue S
  obtain ⟨info, ho, hk⟩ :
      ∃ info, st.objInfo self.id.raw.toNat = some info ∧
        info.kind = ObjKind.KeyRing := by
    unfold KState.isRing at hR
    cases ho : st.objInfo self.id.raw.toNat with
    | none => rw [ho] at hR; simp at hR
    | some info =>
      rw [ho] at hR
      simp only [decide_eq_true_eq] at hR
      exact ⟨info, rfl, hR⟩
  have hrange := hwf.objs_range _ info ho
  have hne : self.id.raw.toNat ≠ st.next := Nat.ne_of_lt hrange.2
  have hobj1 :
      lookupA (setA st.objs st.next ⟨ObjKind.KeyRing, "", []⟩)
        self.id.raw.toNat = some info := by
    rw [lookupA_setA_ne _ _ _ _ hne]
    exact ho
  have hlink : KeyRing.link_keyring_id st self S =
      (kAddLink
        { st with
            next := st.next + 1
            specials := setA st.specials S st.next
            objs := setA st.objs st.next ⟨ObjKind.KeyRing, "", []⟩ }
        self.id.raw.toNat st.next, Except.ok ()) := by
    simp only [KeyRing.link_keyring_id, kLink, if_neg hneg, hofraw,
      kGetKeyRingId, hS, if_pos, KState.objInfo, hobj1, hk, if_true]
  have htf : KeySerialId.tryFrom st.next = some ⟨Int.ofNat st.next⟩ := by
    unfold KeySerialId.tryFrom
    rw [if_pos hb]
  refine ⟨⟨?_, ?_⟩, ?_⟩
  · rw [hlink]
  · refine ⟨⟨⟨Int.ofNat st.next⟩⟩, ?_, ?_⟩
    · rw [hlink]
      have hsp : lookupA
          (kAddLink
            { st with
                next := st.next + 1
                specials := setA st.specials S st.next
                objs := setA st.objs st.next ⟨ObjKind.KeyRing, "", []⟩ }
            self.id.raw.toNat st.next).specials S = some st.next := by
        simp only [kAddLink]
        exact lookupA_setA_self _ _ _
      simp [KeyRing.from_special_id, kGetKeyRingId, hsp,
        KeyRing.from_special_id_core, htf]
    · show (0 : Int) < (st.next : Int)
      exact_mod_cast hwf.pos_next
  · simp only [KeyRing.unlink_keyring_id, kUnlink, if_neg hneg, hofraw, hS]

/-- Witness for C4: the never-created Session slot at the concrete state. -/
theorem link_creates_unlink_rejects_witness :
    ((KeyRing.link_keyring_id exSt exRing KeyRingIdentifier.Session).2 =
        Except.ok () ∧
      ∃ R2 : KeyRing,
        (KeyRing.from_special_id
            (KeyRing.link_keyring_id exSt exRing KeyRingIdentifier.Session).1
            KeyRingIdentifier.Session false).2 = Except.ok R2 ∧ 0 < R2.id.raw)
    ∧ KeyRing.unlink_keyring_id exSt exRing KeyRingIdentifier.Session =
        (exSt, Except.error KeyError.KeyDoesNotExist) :=
  link_creates_unlink_rejects exSt exRing KeyRingIdentifier.Session
    (wfState_of_wfb (by decide)) (by decide) (by decide) (by decide)

/-- C7: Link/unlink inverse law.  For a keyring `R` and an object `X` whose
link collection does not contain `X`: after a successful `link` of `X`
into `R`, `get_links` on `R` contains `X`; after a subsequent successful
`unlink` of `X` from `R`, `get_links` on `R` no longer contains `X`
(capacity `max` large enough to hold the links). -/
theorem link_unlink_inverse (st st1 st2 : KState) (self : KeyRing) (key : Key)
    (max : Nat) (l0 l1 l2 : Links)
    (hwf : WFState st)
    (hpos : 0 < key.id.raw)
    (h0 : KeyRing.get_links st self max = Except.ok l0)
    (hn0 : Links.containsId l0 key.id.raw.toNat = false)
    (h1 : KeyRing.link_key st self key = (st1, Except.ok ()))
    (h2 : KeyRing.unlink_key st1 self key = (st2, Except.ok ()))
    (hmax : (st1.ringLinks self.id.raw.toNat).length ≤ max)
    (hl1 : KeyRing.get_links st1 self max = Except.ok l1)
    (hl2 : KeyRing.get_links st2 self max = Except.ok l2) :
    Links.containsId l1 key.id.raw.toNat = true ∧
    Links.containsId l2 key.id.raw.toNat = false := by
  set kid := key.id.raw.toNat with hkid
  set rid := self.id.raw.toNat with hrid
  obtain ⟨⟨sinfo, hoi⟩, ⟨dinfo, hdo, hdk⟩, hst1⟩ := kLink_pos_ok hpos h1
  obtain ⟨hmem, hst2⟩ := kUnlink_pos_ok hpos h2
  -- the link list of the destination after the link
  have hr1 : st1.ringLinks rid =
      (st.ringLinks rid).filter (fun i => !st.sameTypeDesc i sinfo)
        ++ [kid] := by
    rw [hst1]
    exact kAddLink_ringLinks st rid kid sinfo hoi
  have hobjs1 : st1.objs = st.objs := by rw [hst1]; rfl
  have hoi1 : st1.objInfo kid = some sinfo := by
    unfold KState.objInfo
    rw [hobjs1]
    exact hoi
  have hr2 : st2.ringLinks rid =
      (st1.ringLinks rid).filter (fun i => decide (i ≠ kid)) := by
    rw [hst2]
    unfold KState.ringLinks
    simp [lookupA_setA_self]
  -- decode the two link collections
  have hdec1 : l1 = ((st1.ringLinks rid).take max).filterMap
      (LinkNode.from_id st1) := by
    unfold KeyRing.get_links kRead KeyRing.get_links_core at hl1
    simp only [← hrid] at hl1
    cases hl1
    rw [Nat.mul_div_cancel_left _ (by norm_num : 0 < 4), List.take_length]
  have hdec2 : l2 = ((st2.ringLinks rid).take max).filterMap
      (LinkNode.from_id st2) := by
    unfold KeyRing.get_links kRead KeyRing.get_links_core at hl2
    simp only [← hrid] at hl2
    cases hl2
    rw [Nat.mul_div_cancel_left _ (by norm_num : 0 < 4), List.take_length]
  have htake1 : (st1.ringLinks rid).take max = st1.ringLinks rid :=
    List.take_of_length_le hmax
  have hlen2 : (st2.ringLinks rid).length ≤ max := by
    rw [hr2]
    exact le_trans (List.length_filter_le _ _) hmax
  have htake2 : (st2.ringLinks rid).take max = st2.ringLinks rid :=
    List.take_of_length_le hlen2
  constructor
  · -- the linked object is in the decoded collection
    obtain ⟨node, hnode⟩ : ∃ n, LinkNode.from_id st1 kid = some n := by
      rcases sinfo with ⟨k, dsc, pl⟩
      unfold LinkNode.from_id
      rw [hoi1]
      cases k
      · exact ⟨_, rfl⟩
      · exact ⟨_, rfl⟩
    have hmemk : kid ∈ st1.ringLinks rid := by
      rw [hr1]
      exact List.mem_append_right _ (List.mem_singleton.mpr rfl)
    have hmemn : node ∈ l1 := by
      rw [hdec1, htake1]
      exact List.mem_filterMap.mpr ⟨kid, hmemk, hnode⟩
    unfold Links.containsId
    rw [List.any_eq_true]
    exact ⟨node, hmemn, by simp [from_id_nodeId hnode]⟩
  · -- after the unlink no decoded node carries the identifier
    unfold Links.containsId
    rw [List.any_eq_false]
    intro node hnode
    rw [hdec2, htake2, hr2] at hnode
    obtain ⟨i, hi, hclass⟩ := List.mem_filterMap.mp hnode
    have hine : i ≠ kid := by
      have := List.of_mem_filter hi
      simpa using this
    have hni : node.nodeId = i := from_id_nodeId hclass
    simp [hni, hine]

/-- Witness for C7: linking then unlinking the concrete key 2 on keyring 1. -/
theorem link_unlink_inverse_witness :
    Links.containsId [LinkNode.key 2] 2 = true ∧
    Links.containsId [] 2 = false :=
  link_unlink_inverse exSt2 exSt2L exSt2U exRing exKey 10 [] [LinkNode.key 2]
    [] (wfState_of_wfb (by decide)) (by decide) (by rfl) (by decide)
    (by rfl) (by rfl) (by decide) (by rfl) (by rfl)

/-- C8: Idempotence of persistent-keyring acquisition: two successful
`get_persistent` calls (for the one modelled user) yield Identifiers that
compare equal, and both differ from the Identifier yielded by
`from_special_id(User, false)`. -/
theorem get_persistent_idempotent (st st1 st2 : KState)
    (L L' : KeyRingIdentifier) (p1 p2 u : KeyRing)
    (hwf : WFState st)
    (h1 : KeyRing.get_persistent st L = (st1, Except.ok p1))
    (h2 : KeyRing.get_persistent st1 L' = (st2, Except.ok p2))
    (hu : (KeyRing.from_special_id st2 KeyRingIdentifier.User false).2 =
      Except.ok u) :
    p1 = p2 ∧ p1.id ≠ u.id ∧ p2.id ≠ u.id := by
  obtain ⟨st1', pid, heq1, hper1, hcase1, hlt1, hevo1⟩ :=
    kGetPersistent_ok st L hwf
  simp only [KeyRing.get_persistent, heq1] at h1
  by_cases hpb : pid < 2 ^ 31
  · have htf : KeySerialId.tryFrom pid = some ⟨Int.ofNat pid⟩ := by
      unfold KeySerialId.tryFrom
      rw [if_pos hpb]
    have hc : KeyRing.get_persistent_core (Except.ok pid) =
        Except.ok ⟨⟨Int.ofNat pid⟩⟩ := by
      simp [KeyRing.get_persistent_core, htf]
    rw [hc, Prod.mk.injEq] at h1
    obtain ⟨hA, hB⟩ := h1
    injection hB with hB
    subst hA
    obtain ⟨st2', heq2, hevo2⟩ := kGetPersistent_existing st1' L' pid hper1
    simp only [KeyRing.get_persistent, heq2] at h2
    rw [hc, Prod.mk.injEq] at h2
    obtain ⟨hA2, hB2⟩ := h2
    injection hB2 with hB2
    subst hA2
    -- unpack the User-slot resolution
    cases hU : lookupA st2'.specials KeyRingIdentifier.User with
    | none =>
      have hg : kGetKeyRingId st2' KeyRingIdentifier.User false =
          (st2', Except.error KeyError.KeyDoesNotExist) := by
        simp [kGetKeyRingId, hU]
      simp [KeyRing.from_special_id, hg, KeyRing.from_special_id_core] at hu
    | some uid =>
      have hg : kGetKeyRingId st2' KeyRingIdentifier.User false =
          (st2', Except.ok uid) := by
        simp [kGetKeyRingId, hU]
      simp only [KeyRing.from_special_id, hg] at hu
      by_cases hub : uid < 2 ^ 31
      · have htfu : KeySerialId.tryFrom uid = some ⟨Int.ofNat uid⟩ := by
          unfold KeySerialId.tryFrom
          rw [if_pos hub]
        have hcu : KeyRing.from_special_id_core (Except.ok uid) =
            Except.ok ⟨⟨Int.ofNat uid⟩⟩ := by
          simp [KeyRing.from_special_id_core, htfu]
        rw [hcu] at hu
        injection hu with hu
        have hneq : uid ≠ pid := by
          rcases hevo2 KeyRingIdentifier.User uid hU with hin1 | hge
          · rcases hevo1 KeyRingIdentifier.User uid hin1 with hin0 | hlt
            · rcases hcase1 with hsome | ⟨hnone, hpideq⟩
              · exact hwf.persistent_fresh pid KeyRingIdentifier.User uid
                  hsome hin0
              · have hr := hwf.specials_range KeyRingIdentifier.User uid hin0
                omega
            · omega
          · omega
        refine ⟨by rw [← hB, ← hB2], ?_, ?_⟩
        · rw [← hB, ← hu]
          intro hcon
          injection hcon with hcon
          injection hcon with hcon
          exact hneq hcon.symm
        · rw [← hB2, ← hu]
          intro hcon
          injection hcon with hcon
          injection hcon with hcon
          exact hneq hcon.symm
      · have htfu : KeySerialId.tryFrom uid = none := by
          unfold KeySerialId.tryFrom
          rw [if_neg hub]
        have hcu : KeyRing.from_special_id_core (Except.ok uid) =
            Except.error KeyError.InvalidIdentifier := by
          simp [KeyRing.from_special_id_core, htfu]
        rw [hcu] at hu
        cases hu
  · have htf : KeySerialId.tryFrom pid = none := by
      unfold KeySerialId.tryFrom
      rw [if_neg hpb]
    have hc : KeyRing.get_persistent_core (Except.ok pid) =
        Except.error KeyError.InvalidIdentifier := by
      simp [KeyRing.get_persistent_core, htf]
    rw [hc] at h1
    simp at h1

/-- Witness for C8: two `get_persistent` calls from the concrete state. -/
theorem get_persistent_idempotent_witness :
    (⟨⟨Int.ofNat 2⟩⟩ : KeyRing) = ⟨⟨Int.ofNat 2⟩⟩ ∧
    (⟨⟨Int.ofNat 2⟩⟩ : KeyRing).id ≠ (⟨⟨Int.ofNat 1⟩⟩ : KeyRing).id ∧
    (⟨⟨Int.ofNat 2⟩⟩ : KeyRing).id ≠ (⟨⟨Int.ofNat 1⟩⟩ : KeyRing).id :=
  get_persistent_idempotent exSt exStP1 exStP2 KeyRingIdentifier.User
    KeyRingIdentifier.User ⟨⟨Int.ofNat 2⟩⟩ ⟨⟨Int.ofNat 2⟩⟩ ⟨⟨Int.ofNat 1⟩⟩
    (wfState_of_wfb (by decide)) (by rfl) (by rfl) (by rfl)

/-- The predicate of `isKeyWithDesc` only depends on the metadata of the
inspected identifier. -/
theorem isKeyWithDesc_congr {st st' : KState} {x : Nat} (d : String)
    (h : KState.objInfo st' x = KState.objInfo st x) :
    KState.isKeyWithDesc st' x d = KState.isKeyWithDesc st x d := by
  unfold KState.isKeyWithDesc
  rw [h]

/-- `find?` over an append whose first part has no hit. -/
theorem find?_append_none {α : Type} {l1 l2 : List α} {p : α → Bool}
    (h : l1.find? p = none) : (l1 ++ l2).find? p = l2.find? p := by
  induction l1 with
  | nil => simp
  | cons a t ih =>
    rw [List.cons_append]
    cases hpa : p a
    · rw [List.find?_cons_of_neg _ (by simp [hpa])] at h ⊢
      exact ih h
    · rw [List.find?_cons_of_pos _ hpa] at h
      cases h

/-- One level of the single-frontier scan. -/
theorem levelEntries_single (st : KState) (r : Nat) :
    levelEntries st [r] = st.ringLinks r := by
  simp [levelEntries]

/-- The breadth-first search returns the first matching key of the current
level when there is one. -/
theorem bfsFind_hit (st : KState) (d : String) (frontier : List Nat)
    (fuel : Nat) (i : Nat)
    (h : (levelEntries st frontier).find? (fun j => st.isKeyWithDesc j d) =
      some i) :
    bfsFind st d frontier (fuel + 1) = some i := by
  unfold bfsFind
  simp [h]

/-- KEYCTL_SEARCH with destination `0` on a hit at the root keyring. -/
theorem kSearch_hit (st : KState) (root : Nat) (d : String) (i : Nat)
    (hring : st.isRing root = true)
    (hbfs : bfsFind st d [root] 6 = some i) :
    kSearch st root d 0 = (st, Except.ok i) := by
  unfold kSearch
  rw [if_pos hring]
  simp [hbfs]

/-- `KeyRing::search` when the kernel search hits and the serial is in
range. -/
theorem search_result (st : KState) (self : KeyRing) (d : String) (i : Nat)
    (hnulF : hasNul d = false)
    (hks : kSearch st self.id.raw.toNat d 0 = (st, Except.ok i))
    (htfi : KeySerialId.tryFrom i = some ⟨Int.ofNat i⟩) :
    (KeyRing.search st self d).2 = Except.ok ⟨⟨Int.ofNat i⟩⟩ := by
  unfold KeyRing.search
  rw [if_neg (by simp [hnulF])]
  simp [hks, htfi]

/-- Characterization of a successful `addKey` primitive call: the
description is null-free, the destination is an existing keyring, and
either an existing key of that description in the destination was updated
in place (same serial), or a fresh key was created and linked. -/
theorem kAddKey_ok {st st' : KState} {dest : Nat} {d : String}
    {pl : List UInt8} {i : Nat}
    (h : kAddKey st dest d pl = (st', Except.ok i)) :
    hasNul d = false ∧
    (∃ dinfo, st.objInfo dest = some dinfo ∧ dinfo.kind = ObjKind.KeyRing) ∧
    (((st.ringLinks dest).find? (fun j => st.isKeyWithDesc j d) = some i ∧
        st' = { st with objs := setA st.objs i ⟨ObjKind.Key, d, pl⟩ }) ∨
      ((st.ringLinks dest).find? (fun j => st.isKeyWithDesc j d) = none ∧
        i = st.next ∧
        st' = kAddLink
          { st with
              next := st.next + 1
              objs := setA st.objs st.next ⟨ObjKind.Key, d, pl⟩ }
          dest st.next)) := by
  unfold kAddKey at h
  split at h
  · simp at h
  · rename_i hnul
    have hnulF : hasNul d = false := by
      revert hnul
      cases hasNul d <;> simp
    split at h
    · rename_i dinfo hdo
      split at h
      · rename_i hdk
        split at h
        · rename_i j hfind
          injection h with hA hB
          injection hB with hB
          subst hB
          exact ⟨hnulF, ⟨dinfo, hdo, hdk⟩, Or.inl ⟨hfind, hA.symm⟩⟩
        · rename_i hfind
          injection h with hA hB
          injection hB with hB
          exact ⟨hnulF, ⟨dinfo, hdo, hdk⟩,
            Or.inr ⟨hfind, hB.symm, hB ▸ hA.symm⟩⟩
      · simp at h
    · simp at h

/-- C6: Round-trip: a successful `add_key(d, p)` on a keyring followed by
`search(d)` on the same keyring returns a Key whose Identifier equals the
Identifier `add_key` returned. -/
theorem add_key_search_roundtrip (st st1 : KState) (self : KeyRing)
    (d : String) (secret : List UInt8) (k : Key)
    (hwf : WFState st) (hb : st.next < 2 ^ 31)
    (hadd : KeyRing.add_key st self d secret = (st1, Except.ok k)) :
    (KeyRing.search st1 self d).2 = Except.ok k := by
  obtain ⟨i, hprim, hk⟩ : ∃ i,
      kAddKey st self.id.raw.toNat d secret = (st1, Except.ok i) ∧
      k = ⟨⟨Int.ofNat i⟩⟩ := by
    unfold KeyRing.add_key at hadd
    split at hadd
    · rename_i stx ix heq
      rw [Prod.mk.injEq] at hadd
      obtain ⟨hA, hB⟩ := hadd
      injection hB with hB
      exact ⟨ix, by rw [heq, hA], hB.symm⟩
    · simp at hadd
  obtain ⟨hnulF, ⟨dinfo, hdo, hdk⟩, hcases⟩ := kAddKey_ok hprim
  have hdrange := hwf.objs_range _ dinfo hdo
  rcases hcases with ⟨hfind, hst1⟩ | ⟨hfind, hieq, hst1⟩
  · -- update in place: the existing key with this description is returned
    have hPi : st.isKeyWithDesc i d = true := by
      have hfs := List.find?_some hfind
      simpa using hfs
    obtain ⟨iinfo, hio, hkindi⟩ : ∃ ii, st.objInfo i = some ii ∧
        ii.kind = ObjKind.Key := by
      unfold KState.isKeyWithDesc at hPi
      cases hio : st.objInfo i with
      | none => rw [hio] at hPi; simp at hPi
      | some ii =>
        rw [hio] at hPi
        simp only [decide_eq_true_eq] at hPi
        exact ⟨ii, rfl, hPi.1⟩
    have hirange := hwf.objs_range i iinfo hio
    have hine : self.id.raw.toNat ≠ i := by
      intro hcon
      rw [hcon] at hdo
      rw [hdo] at hio
      injection hio with hio
      rw [hio] at hdk
      rw [hdk] at hkindi
      cases hkindi
    have hobj1dest : st1.objInfo self.id.raw.toNat = some dinfo := by
      rw [hst1]
      unfold KState.objInfo
      exact (lookupA_setA_ne _ _ _ _ hine).trans hdo
    have hring1 : st1.isRing self.id.raw.toNat = true := by
      unfold KState.isRing
      rw [hobj1dest]
      simp [hdk]
    have hlinks1 : st1.ringLinks self.id.raw.toNat =
        st.ringLinks self.id.raw.toNat := by
      rw [hst1]
      rfl
    have hobji1 : st1.objInfo i = some ⟨ObjKind.Key, d, secret⟩ := by
      rw [hst1]
      unfold KState.objInfo
      exact lookupA_setA_self _ _ _
    have hfind1 : (st.ringLinks self.id.raw.toNat).find?
        (fun j => st1.isKeyWithDesc j d) = some i := by
      apply find?_congr_at hfind
      · unfold KState.isKeyWithDesc
        rw [hobji1]
        simp
      · intro x hx
        exact isKeyWithDesc_congr d (by
          rw [hst1]
          unfold KState.objInfo
          exact lookupA_setA_ne _ _ _ _ hx)
    have hbfs : bfsFind st1 d [self.id.raw.toNat] 6 = some i := by
      have step := bfsFind_hit st1 d [self.id.raw.toNat] 5 i
        (by rw [levelEntries_single, hlinks1]; exact hfind1)
      exact step
    have htfi : KeySerialId.tryFrom i = some ⟨Int.ofNat i⟩ := by
      unfold KeySerialId.tryFrom
      rw [if_pos (lt_trans hirange.2 hb)]
    rw [hk]
    exact search_result st1 self d i hnulF
      (kSearch_hit st1 self.id.raw.toNat d i hring1 hbfs) htfi
  · -- fresh key: the newly linked key is found first
    subst hieq
    have hdne : self.id.raw.toNat ≠ st.next := Nat.ne_of_lt hdrange.2
    have hobjM : KState.objInfo
        { st with
            next := st.next + 1
            objs := setA st.objs st.next ⟨ObjKind.Key, d, secret⟩ }
        st.next = some ⟨ObjKind.Key, d, secret⟩ := by
      unfold KState.objInfo
      exact lookupA_setA_self _ _ _
    have hobj1dest : st1.objInfo self.id.raw.toNat = some dinfo := by
      rw [hst1]
      unfold KState.objInfo
      rw [kAddLink_objs]
      exact (lookupA_setA_ne _ _ _ _ hdne).trans hdo
    have hring1 : st1.isRing self.id.raw.toNat = true := by
      unfold KState.isRing
      rw [hobj1dest]
      simp [hdk]
    have hlinks1 : st1.ringLinks self.id.raw.toNat =
        (st.ringLinks self.id.raw.toNat).filter
          (fun j => !KState.sameTypeDesc
            { st with
                next := st.next + 1
                objs := setA st.objs st.next ⟨ObjKind.Key, d, secret⟩ }
            j ⟨ObjKind.Key, d, secret⟩) ++ [st.next] := by
      rw [hst1]
      exact kAddLink_ringLinks _ _ _ _ hobjM
    have hobj1 : ∀ x, x ≠ st.next → st1.objInfo x = st.objInfo x := by
      intro x hx
      rw [hst1]
      unfold KState.objInfo
      rw [kAddLink_objs]
      exact lookupA_setA_ne _ _ _ _ hx
    have hobj1next : st1.objInfo st.next = some ⟨ObjKind.Key, d, secret⟩ := by
      rw [hst1]
      unfold KState.objInfo
      rw [kAddLink_objs]
      exact lookupA_setA_self _ _ _
    have hnone : ((st.ringLinks self.id.raw.toNat).filter
        (fun j => !KState.sameTypeDesc
          { st with
              next := st.next + 1
              objs := setA st.objs st.next ⟨ObjKind.Key, d, secret⟩ }
          j ⟨ObjKind.Key, d, secret⟩)).find?
        (fun j => st1.isKeyWithDesc j d) = none := by
      rw [List.find?_eq_none]
      intro x hxmem
      have hxorig : x ∈ st.ringLinks self.id.raw.toNat :=
        List.mem_of_mem_filter hxmem
      have hxobj := hwf.links_objs _ x hxorig
      obtain ⟨xi, hxi⟩ := Option.isSome_iff_exists.mp hxobj
      have hxlt := (hwf.objs_range x xi hxi).2
      have hxne : x ≠ st.next := Nat.ne_of_lt hxlt
      rw [isKeyWithDesc_congr d (hobj1 x hxne)]
      have hxf := List.find?_eq_none.mp hfind x hxorig
      simpa using hxf
    have hfind1 : (st1.ringLinks self.id.raw.toNat).find?
        (fun j => st1.isKeyWithDesc j d) = some st.next := by
      rw [hlinks1, find?_append_none hnone]
      rw [List.find?_cons_of_pos]
      unfold KState.isKeyWithDesc
      rw [hobj1next]
      simp
    have hbfs : bfsFind st1 d [self.id.raw.toNat] 6 = some st.next := by
      have step := bfsFind_hit st1 d [self.id.raw.toNat] 5 st.next
        (by rw [levelEntries_single]; exact hfind1)
      exact step
    have htfi : KeySerialId.tryFrom st.next = some ⟨Int.ofNat st.next⟩ := by
      unfold KeySerialId.tryFrom
      rw [if_pos hb]
    rw [hk]
    exact search_result st1 self d st.next hnulF
      (kSearch_hit st1 self.id.raw.toNat d st.next hring1 hbfs) htfi

/-- Witness for C6: adding "d" to the concrete keyring and searching it. -/
theorem add_key_search_roundtrip_witness :
    (KeyRing.search exStA exRing "d").2 =
      Except.ok ⟨⟨Int.ofNat 2⟩⟩ :=
  add_key_search_roundtrip exSt exStA exRing "d" [7] ⟨⟨Int.ofNat 2⟩⟩
    (wfState_of_wfb (by decide)) (by decide) (by rfl)

end Keyutils
